import Mathlib

/-!
Verification development for the configuration-resolution engine of
`pleasure-utils` (source: `src/src/lib/find-package-json.js`).

The JavaScript module is embedded shallowly:

* JS plain values become the inductive type `Value` (an object is an
  insertion-ordered association list, as in JS).  Array values are omitted:
  the deep-merge of array-valued keys is delegated by the source to the
  external `deepmerge` package, whose code is not part of this repository,
  and the spec itself (§9) leaves the array policy open.
* The module-level mutable state (`require.cache`, the `middlewares` table)
  is passed explicitly; filesystem reads are a function from paths to file
  states; fallible loading returns `Except`.
-/

namespace PleasureUtils

/-- A JS plain value as used by the configuration engine: booleans, numbers,
strings and objects.  An object is its insertion-ordered list of
(key, value) properties, as JS objects are.  Array values are omitted (see
the module comment). -/
inductive Value : Type where
  | bool (b : Bool)
  | num (n : Int)
  | str (s : String)
  | obj (entries : List (String × Value))

/-- The empty JS object literal. -/
def emptyObj : Value := Value.obj []

/-- Property lookup in an association list (JS `o[key]`, with `none` for a
missing property, i.e. `undefined`). -/
def lookupAssoc {β : Type} : List (String × β) → String → Option β
  | [], _ => none
  | (k, v) :: rest, key => if k = key then some v else lookupAssoc rest key

/-- JS property assignment `o[key] = v`: an existing key is updated in
place, a new key is appended (JS insertion order). -/
def setKey {β : Type} : List (String × β) → String → β → List (String × β)
  | [], key, v => [(key, v)]
  | (k, w) :: rest, key, v =>
    if k = key then (k, v) :: rest else (k, w) :: setKey rest key v

/-- JS `delete o[key]`: removes the property named `key`. -/
def eraseKey {β : Type} : List (String × β) → String → List (String × β)
  | [], _ => []
  | (k, v) :: rest, key =>
    if k = key then eraseKey rest key else (k, v) :: eraseKey rest key

mutual

/-- Modelled from the spec: the deep merge performed by the external
`deepmerge` dependency (its source is not in this repository).  Following
spec §4.4 and the glossary: nested objects merge recursively key by key, a
later source's value overrides the earlier one at a conflicting key when
either side is not an object, and keys present on only one side survive.
The (spec-open) array case does not arise because `Value` has no arrays. -/
def mergeV : Value → Value → Value
  | Value.obj ts, Value.obj ss => Value.obj (mergeInto ts ss)
  | _, s => s
termination_by _t s => sizeOf s

/-- Folds the source object's properties left to right into the accumulator
`d` (the target's properties), as the spec's left-to-right fold describes:
a colliding key is merged recursively via `mergeV`, a fresh key is
appended. -/
def mergeInto (d : List (String × Value)) : List (String × Value) → List (String × Value)
  | [] => d
  | (k, sv) :: rest =>
    mergeInto
      (setKey d k
        (match lookupAssoc d k with
          | some old => mergeV old sv
          | none => sv))
      rest
termination_by l => sizeOf l

end

/-- `deepmerge.all`, modelled from the spec: the left-to-right fold of
`mergeV` over the list of layers, starting from the empty object. -/
def mergeAll (layers : List Value) : Value := layers.foldl mergeV emptyObj

/-- JS truthiness of a `Value` (`false`, `0` and the empty string are falsy;
every object is truthy). -/
def jsTruthy : Value → Bool
  | Value.bool b => b
  | Value.num n => n != 0
  | Value.str s => s != ""
  | Value.obj _ => true

/-- Traverses a parsed dot path through nested objects, `none` when a step
is missing or hits a non-object (lodash `baseGet`). -/
def getPathV : Value → List String → Option Value
  | v, [] => some v
  | Value.obj es, k :: rest =>
    (match lookupAssoc es k with
      | some v => getPathV v rest
      | none => none)
  | _, _ :: _ => none

/-- Splits a path string at the dots, accumulating the current component in
reverse (`"a.b"` to `["a", "b"]`, `""` to `[""]`). -/
def splitDotAux : List Char → List Char → List String
  | [], acc => [String.mk acc.reverse]
  | c :: rest, acc =>
    if c = '.' then String.mk acc.reverse :: splitDotAux rest []
    else splitDotAux rest (c :: acc)

/-- The dot-path split lodash performs on a string path. -/
def splitDot (s : String) : List String := splitDotAux s.data []

/-- lodash `get(doc, scopePath, defaultValue)` for a dot-separated string
path: the default is returned exactly when the traversal comes back
`undefined`. -/
def lodashGet (doc : Value) (scopePath : String) (dflt : Value) : Value :=
  (getPathV doc (splitDot scopePath)).getD dflt

/-- A contribution registered with `extendConfig`: either a plain object to
merge, or a zero-argument producer invoked on every composition. -/
inductive Contribution : Type where
  | static (v : Value)
  | producer (f : Unit → Value)

/-- The module-level `middlewares` table: scope name to the ordered sequence
of registered contributions. -/
abbrev Middlewares := List (String × List Contribution)

/-- Resolves a contribution as `getMiddlewareMutation` does: a function
value is invoked, a plain object is used as is. -/
def runContribution : Contribution → Value
  | Contribution.static v => v
  | Contribution.producer f => f ()

/-- Appends a contribution to the sequence for `scope`, creating the
sequence when absent (`middlewares[scope] = []; middlewares[scope].push`). -/
def pushContribution : Middlewares → String → Contribution → Middlewares
  | [], scope, c => [(scope, [c])]
  | (k, cs) :: rest, scope, c =>
    if k = scope then (k, cs ++ [c]) :: rest
    else (k, cs) :: pushContribution rest scope c

/-- `extendConfig(scope, replacement)`.  The state is passed explicitly and
the returned list of strings is what the call logs via `console.error`: the
source returns the `console.error` result (logging, not throwing) when
`scope` is falsy (the empty string) or `replacement` is absent. -/
def extendConfig (scope : String) (replacement : Option Contribution)
    (middlewares : Middlewares) : Middlewares × List String :=
  match replacement with
  | none => (middlewares, ["provide both a scope & replacement"])
  | some c =>
    if scope = "" then (middlewares, ["provide both a scope & replacement"])
    else (pushContribution middlewares scope c, [])

/-- The property key a JS object access uses for the `scope` argument:
accessing `middlewares[scope]` with `scope === null` coerces the key to the
literal string "null". -/
def scopeKey : Option String → String
  | none => "null"
  | some s => s

/-- `getMiddlewareMutation(scope)`: the empty object when the table has no
sequence for the (coerced) scope key, otherwise the left-to-right
deep-merge of the contributions in registration order, starting from an
empty accumulator. -/
def getMiddlewareMutation (middlewares : Middlewares) (scope : Option String) : Value :=
  match lookupAssoc middlewares (scopeKey scope) with
  | none => emptyObj
  | some cs => cs.foldl (fun acc c => mergeV acc (runContribution c)) emptyObj

/-- State of a module file on disk: absent, present but failing to load, or
loading to a value. -/
inductive FileState : Type where
  | absent
  | unparsable
  | parsed (v : Value)

/-- The filesystem, as the loader sees it: each absolute path is in one
`FileState`. -/
abbrev FS := String → FileState

/-- `require.cache`: loaded module values keyed by absolute resolved path. -/
abbrev Cache := List (String × Value)

/-- Modelled from the spec: the two failure classes of §4.2/§7 for the
configuration loader (Node's `require`, which is not repository code) — a
missing module (`ConfigNotFound`, Node's MODULE_NOT_FOUND, which names the
path it could not find) and a load/parse failure (`ConfigLoadError`).  Both
carry the offending path and are distinct constructors. -/
inductive LoadError : Type where
  | moduleNotFound (path : String)
  | parseError (path : String)
deriving DecidableEq

/-- Modelled from the spec: Node's `require(p)` with its cache (the source
delegates loading and caching to it; §4.2 states the caching contract).  A
cached path is answered from the cache without touching the filesystem;
otherwise the file is read, a missing file is `moduleNotFound`, an
unloadable one `parseError`, and a loaded value is stored in the cache. -/
def requireMod (fs : FS) (cache : Cache) (p : String) : Except LoadError (Value × Cache) :=
  match lookupAssoc cache p with
  | some v => Except.ok (v, cache)
  | none =>
    match fs p with
    | FileState.absent => Except.error (LoadError.moduleNotFound p)
    | FileState.unparsable => Except.error (LoadError.parseError p)
    | FileState.parsed v => Except.ok (v, cache ++ [(p, v)])

/-- Modelled from the spec: Node's `require.resolve(p)`, which resolves the
path against the filesystem (ignoring the cache) and fails with
`moduleNotFound` when no file is there. -/
def requireResolve (fs : FS) (p : String) : Except LoadError String :=
  match fs p with
  | FileState.absent => Except.error (LoadError.moduleNotFound p)
  | _ => Except.ok p

/-- `findConfig()`: the expected configuration-file path, resolved against
the project root (`findRoot('pleasure.config.js')`).  The resolved root is
a parameter here; root discovery itself is analysed separately in
`findPackageJson`. -/
def findConfig (root : String) : String := root ++ "/pleasure.config.js"

/-- The loading prefix of `getConfig`: on `force`, the cache entry for the
resolved config path is deleted (`delete require.cache[require.resolve(configFile)]`)
before the `require(configFile)` call; otherwise `require` runs on the
cache as is. -/
def loadConfigFile (root : String) (fs : FS) (cache : Cache) (force : Bool) :
    Except LoadError (Value × Cache) :=
  let configFile := findConfig root
  if force then
    match requireResolve fs configFile with
    | Except.error e => Except.error e
    | Except.ok resolved => requireMod fs (eraseKey cache resolved) configFile
  else
    requireMod fs cache configFile

/-- The merging tail of `getConfig` once the document is loaded: pick the
base layer (`scope ? get(loadedConfig, scope, {}) : loadedConfig`, with JS
truthiness on `scope`, so the empty-string scope falls back to the whole
document), compute the middleware mutation when `runMiddleware`, and
return `merge.all([{}, base, mutation, mergeWith || {}])`. -/
def resolveLayers (loadedConfig : Value) (middlewares : Middlewares)
    (scope : Option String) (mergeWith : Value) (runMiddleware : Bool) : Value :=
  let base : Value :=
    match scope with
    | some s => if s = "" then loadedConfig else lodashGet loadedConfig s emptyObj
    | none => loadedConfig
  let mutation := if runMiddleware then getMiddlewareMutation middlewares scope else emptyObj
  let overrides := if jsTruthy mergeWith then mergeWith else emptyObj
  mergeAll [emptyObj, base, mutation, overrides]

/-- `getConfig(scope, mergeWith, force, runMiddleware)` over explicit
filesystem, cache and middleware-table state.  The body mirrors the source:
load (with optional forced cache invalidation via `loadConfigFile`), then
deep-merge the layers via `resolveLayers`. -/
def getConfig (root : String) (fs : FS) (cache : Cache) (middlewares : Middlewares)
    (scope : Option String) (mergeWith : Value) (force : Bool) (runMiddleware : Bool) :
    Except LoadError (Value × Cache) :=
  match loadConfigFile root fs cache force with
  | Except.error e => Except.error e
  | Except.ok (loadedConfig, cache1) =>
    Except.ok (resolveLayers loadedConfig middlewares scope mergeWith runMiddleware, cache1)

/-- Renders an absolute directory path from its component list, as the
strings node's `path` functions produce: the root is "/", otherwise the
components joined by "/" with a leading "/". -/
def renderPath (cs : List String) : String :=
  if cs.isEmpty then "/" else cs.foldl (fun acc c => acc ++ "/" ++ c) ""

/-- `path.join(dir, '../')` on an absolute normalized directory: the parent
directory, with the filesystem root its own parent. -/
def joinParent (cs : List String) : List String := cs.dropLast

/-- Outcome of a fuel-bounded run of `findPackageJson`: a found path, the
bare `return` (undefined), or fuel exhaustion — the last meaning the
recursion did not terminate within the given depth. -/
inductive FPJResult : Type where
  | found (p : String)
  | notFound
  | outOfFuel
deriving DecidableEq

/-- `findPackageJson(dir)` with the recursion depth made explicit: `fs` is
`existsSync`, the directory is its component list.  Each step forms
`local = path.join(dir, 'package.json')`, returns it when it exists,
returns undefined when `local === '/'`, and otherwise recurses on
`path.join(dir, '../')`. -/
def findPackageJson (fs : String → Bool) : Nat → List String → FPJResult
  | 0, _ => FPJResult.outOfFuel
  | fuel + 1, dir =>
    let localPath := renderPath (dir ++ ["package.json"])
    if fs localPath then FPJResult.found localPath
    else if localPath = "/" then FPJResult.notFound
    else findPackageJson fs fuel (joinParent dir)

/-! Concrete fixtures used by the closed theorems below. -/

/-- A configuration document `{api: {port: 3000, host: "x"}}`. -/
def doc6 : Value :=
  Value.obj [("api", Value.obj [("port", Value.num 3000), ("host", Value.str "x")])]

/-- A filesystem holding exactly the configuration file of the project at
`/p`, loading to `doc6`. -/
def fs6 : FS := fun p => if p = findConfig "/p" then FileState.parsed doc6 else FileState.absent

/-- A configuration document `{a: 1}`. -/
def doc9 : Value := Value.obj [("a", Value.num 1)]

/-- A filesystem holding exactly the configuration file of the project at
`/p`, loading to `doc9`. -/
def fs9 : FS := fun p => if p = findConfig "/p" then FileState.parsed doc9 else FileState.absent

/-! Helper lemmas about the association-list state. -/

theorem lookupAssoc_append_self {β : Type} (c : List (String × β)) (p : String) (v : β)
    (h : lookupAssoc c p = none) : lookupAssoc (c ++ [(p, v)]) p = some v := by
  induction c with
  | nil => simp [lookupAssoc]
  | cons kv rest ih =>
    obtain ⟨k, w⟩ := kv
    by_cases hk : k = p
    · simp [lookupAssoc, hk] at h
    · simp only [lookupAssoc, hk, if_false, List.cons_append] at h ⊢
      exact ih h

theorem lookupAssoc_eraseKey_self {β : Type} (c : List (String × β)) (p : String) :
    lookupAssoc (eraseKey c p) p = none := by
  induction c with
  | nil => rfl
  | cons kv rest ih =>
    obtain ⟨k, w⟩ := kv
    by_cases hk : k = p <;> simp [eraseKey, lookupAssoc, hk, ih]

theorem requireMod_ok_lookup (fs : FS) (cache : Cache) (p : String) (v : Value) (c1 : Cache)
    (h : requireMod fs cache p = Except.ok (v, c1)) : lookupAssoc c1 p = some v := by
  unfold requireMod at h
  cases hc : lookupAssoc cache p with
  | some w =>
    rw [hc] at h
    simp only [Except.ok.injEq, Prod.mk.injEq] at h
    obtain ⟨hv, hcc⟩ := h
    rw [← hcc, hc, hv]
  | none =>
    rw [hc] at h
    cases hf : fs p with
    | absent => rw [hf] at h; exact absurd h (by simp)
    | unparsable => rw [hf] at h; exact absurd h (by simp)
    | parsed w =>
      rw [hf] at h
      simp only [Except.ok.injEq, Prod.mk.injEq] at h
      obtain ⟨hv, hcc⟩ := h
      rw [← hcc, ← hv]
      exact lookupAssoc_append_self cache p _ hc

/-- The candidate string `path.join(dir, 'package.json')` always ends in
`package.json`, so it is never the bare root string "/": the termination
guard `local === '/'` of `findPackageJson` compares the wrong variable and
can never fire. -/
theorem renderPath_append_marker_ne_root (cs : List String) :
    renderPath (cs ++ ["package.json"]) ≠ "/" := by
  have hne : (cs ++ ["package.json"]).isEmpty = false := by simp
  intro h
  rw [renderPath] at h
  rw [hne] at h
  simp only [Bool.false_eq_true, if_false, List.foldl_append, List.foldl_cons,
    List.foldl_nil] at h
  have hlen := congrArg String.length h
  simp only [String.length_append] at hlen
  have h1 : String.length "/" = 1 := rfl
  have h2 : String.length "package.json" = 12 := rfl
  omega

/-- Claim C2: on a filesystem with no `package.json` anywhere on the
ascent, `findPackageJson` does not terminate, for any starting directory
and any recursion depth: the guard compares `local` (which always ends in
`package.json`) against "/", and `path.join(dir, '../')` leaves the root
directory fixed, so the ascent never stops.  This refutes the specified
behavior (a clean undefined result at the filesystem root): the claim
describes the intent, the code a slip — a code bug. -/
theorem findPackageJson_unmarked_ascent_never_terminates :
    ∀ (fuel : Nat) (dir : List String),
      findPackageJson (fun _ => false) fuel dir = FPJResult.outOfFuel := by
  intro fuel
  induction fuel with
  | zero => intro dir; rfl
  | succ n ih =>
    intro dir
    have hne := renderPath_append_marker_ne_root dir
    simp only [findPackageJson, Bool.false_eq_true, if_false, hne, ih]

/-- Claim C3: when the project root resolves but the configuration file is
missing on disk (and is not already cached), `getConfig` fails — for any
scope, override, force flag and middleware state — with the
module-not-found error carrying the expected configuration-file path, an
error distinct by construction from a parse failure. -/
theorem getConfig_missing_config_error
    (root : String) (fs : FS) (cache : Cache) (middlewares : Middlewares)
    (scope : Option String) (mergeWith : Value) (force runMiddleware : Bool)
    (hmiss : lookupAssoc cache (findConfig root) = none)
    (habs : fs (findConfig root) = FileState.absent) :
    getConfig root fs cache middlewares scope mergeWith force runMiddleware
      = Except.error (LoadError.moduleNotFound (findConfig root))
    ∧ ∀ p, LoadError.moduleNotFound (findConfig root) ≠ LoadError.parseError p := by
  constructor
  · cases force <;>
      simp [getConfig, loadConfigFile, requireMod, requireResolve, hmiss, habs]
  · intro p hcon
    exact LoadError.noConfusion hcon

/-- Witness for C3 at a concrete state: an empty cache and a filesystem
with no files at all. -/
theorem getConfig_missing_config_error_witness :
    lookupAssoc ([] : Cache) (findConfig "/w") = none
    ∧ getConfig "/w" (fun _ => FileState.absent) [] [] none emptyObj false true
        = Except.error (LoadError.moduleNotFound (findConfig "/w")) :=
  ⟨rfl,
    (getConfig_missing_config_error "/w" (fun _ => FileState.absent) [] [] none emptyObj
      false true rfl rfl).1⟩

/-- Claim C8: a malformed registration — empty scope or absent
contribution — leaves the middleware table unchanged and only emits the
logged diagnostic; `extendConfig` is a total function, so the call never
throws. -/
theorem extendConfig_malformed_rejected
    (scope : String) (replacement : Option Contribution) (middlewares : Middlewares)
    (h : scope = "" ∨ replacement = none) :
    extendConfig scope replacement middlewares
      = (middlewares, ["provide both a scope & replacement"]) := by
  rcases h with h | h
  · subst h
    cases replacement <;> simp [extendConfig]
  · subst h
    simp [extendConfig]

/-- Witness for C8 at a concrete malformed registration (empty scope). -/
theorem extendConfig_malformed_rejected_witness :
    extendConfig "" (some (Contribution.static emptyObj)) []
      = ([], ["provide both a scope & replacement"]) :=
  extendConfig_malformed_rejected "" (some (Contribution.static emptyObj)) [] (Or.inl rfl)

/-- Claim C4: a second `getConfig` call with `force = false` and the cache
produced by a first successful call returns the identical document and
cache, for ANY filesystem state at the time of the second call — the
on-disk file may have changed or vanished, the cache is answered without a
read. -/
theorem getConfig_second_load_cached
    (root : String) (fs1 fs2 : FS) (cache0 : Cache) (middlewares : Middlewares)
    (scope : Option String) (mergeWith : Value) (runMiddleware : Bool)
    (v : Value) (cache1 : Cache)
    (h : getConfig root fs1 cache0 middlewares scope mergeWith false runMiddleware
          = Except.ok (v, cache1)) :
    getConfig root fs2 cache1 middlewares scope mergeWith false runMiddleware
      = Except.ok (v, cache1) := by
  have hload : loadConfigFile root fs1 cache0 false
      = requireMod fs1 cache0 (findConfig root) := by
    simp [loadConfigFile]
  cases hreq : requireMod fs1 cache0 (findConfig root) with
  | error e =>
    simp [getConfig, hload, hreq] at h
  | ok dc =>
    obtain ⟨d, c⟩ := dc
    have hl := requireMod_ok_lookup fs1 cache0 (findConfig root) d c hreq
    simp only [getConfig, hload, hreq, Except.ok.injEq, Prod.mk.injEq] at h
    obtain ⟨hv, hc1⟩ := h
    subst hc1
    have hreq2 : requireMod fs2 c (findConfig root) = Except.ok (d, c) := by
      unfold requireMod
      rw [hl]
    simp only [getConfig, loadConfigFile, Bool.false_eq_true, if_false, hreq2, hv]

/-- Witness for C4: after the first load of `{a: 1}`, the second
`force = false` call still answers from the cache even though every file —
the configuration file included — has meanwhile disappeared from disk. -/
theorem getConfig_second_load_cached_witness :
    getConfig "/p" fs9 [] [] none emptyObj false true
      = Except.ok (doc9, [(findConfig "/p", doc9)])
    ∧ getConfig "/p" (fun _ => FileState.absent) [(findConfig "/p", doc9)] [] none emptyObj
        false true
      = Except.ok (doc9, [(findConfig "/p", doc9)]) := by
  have h1 : getConfig "/p" fs9 [] [] none emptyObj false true
      = Except.ok (doc9, [(findConfig "/p", doc9)]) := by
    simp [getConfig, loadConfigFile, requireMod, lookupAssoc, fs9, resolveLayers, doc9,
      getMiddlewareMutation, scopeKey, jsTruthy, mergeAll, mergeV, mergeInto, setKey, emptyObj]
  exact ⟨h1,
    getConfig_second_load_cached "/p" fs9 (fun _ => FileState.absent) [] [] none emptyObj
      true doc9 [(findConfig "/p", doc9)] h1⟩

/-- Claim C5: a `force = true` load produces the same document as a
completely fresh (empty-cache) load of the current filesystem, whatever was
cached before: the cache entry is discarded before the reload, so an
on-disk edit made after an earlier load is visible. -/
theorem getConfig_force_fresh_read
    (root : String) (fs : FS) (cache : Cache) (middlewares : Middlewares)
    (scope : Option String) (mergeWith : Value) (runMiddleware : Bool) :
    (getConfig root fs cache middlewares scope mergeWith true runMiddleware).map Prod.fst
      = (getConfig root fs [] middlewares scope mergeWith false runMiddleware).map Prod.fst := by
  cases hf : fs (findConfig root) with
  | absent =>
    simp [getConfig, loadConfigFile, requireResolve, requireMod, lookupAssoc, hf]
  | unparsable =>
    simp [getConfig, loadConfigFile, requireResolve, requireMod, lookupAssoc, hf,
      lookupAssoc_eraseKey_self]
  | parsed d =>
    simp [getConfig, loadConfigFile, requireResolve, requireMod, lookupAssoc, hf,
      lookupAssoc_eraseKey_self, Except.map]

/-- Claim C6: with the document `{api: {port: 3000, host: "x"}}`, no
registered extensions and override `{port: 4000}`, a scoped resolve on
"api" returns exactly the object with `port = 4000` (override wins) and
`host = "x"` (non-conflicting base key preserved) — value-equal, up to JS
key order, to `{host: "x", port: 4000}`. -/
theorem getConfig_scoped_override_example :
    getConfig "/p" fs6 [] [] (some "api") (Value.obj [("port", Value.num 4000)]) false true
      = Except.ok (Value.obj [("port", Value.num 4000), ("host", Value.str "x")],
          [(findConfig "/p", doc6)])
    ∧ [(("port" : String), Value.num 4000), ("host", Value.str "x")].Perm
        [("host", Value.str "x"), ("port", Value.num 4000)] := by
  constructor
  · have hsplit : splitDot "api" = ["api"] := rfl
    simp [getConfig, loadConfigFile, requireMod, lookupAssoc, fs6, doc6, resolveLayers,
      lodashGet, hsplit, getPathV, getMiddlewareMutation, scopeKey, jsTruthy,
      mergeAll, mergeV, mergeInto, setKey, emptyObj]
  · exact List.Perm.swap _ _ _

/-- The table after registering the contribution `{a: 1}` under scope "x"
through `extendConfig`, starting from the empty table. -/
def mws7a : Middlewares :=
  (extendConfig "x" (some (Contribution.static (Value.obj [("a", Value.num 1)]))) []).1

/-- The table after additionally registering `{a: 2, b: 3}` under "x". -/
def mws7b : Middlewares :=
  (extendConfig "x"
    (some (Contribution.static (Value.obj [("a", Value.num 2), ("b", Value.num 3)]))) mws7a).1

/-- Claim C7: composing the middleware mutation for a scope with no
registered contributions yields the empty object, and contributions
registered in order under one scope deep-merge in registration order —
registering `{a: 1}` then `{a: 2, b: 3}` under "x" composes to
`{a: 2, b: 3}` (later registration wins on `a`, its own `b` survives). -/
theorem getMiddlewareMutation_compose :
    (∀ (middlewares : Middlewares) (scope : Option String),
        lookupAssoc middlewares (scopeKey scope) = none →
        getMiddlewareMutation middlewares scope = emptyObj)
    ∧ getMiddlewareMutation mws7b (some "x")
      = Value.obj [("a", Value.num 2), ("b", Value.num 3)] := by
  constructor
  · intro middlewares scope h
    simp [getMiddlewareMutation, h]
  · simp [getMiddlewareMutation, mws7b, mws7a, extendConfig, pushContribution, scopeKey,
      lookupAssoc, runContribution, mergeV, mergeInto, setKey, emptyObj]

/-- Witness for C7 at a concrete unregistered scope. -/
theorem getMiddlewareMutation_compose_witness :
    lookupAssoc ([] : Middlewares) (scopeKey (some "y")) = none
    ∧ getMiddlewareMutation [] (some "y") = emptyObj :=
  ⟨rfl, getMiddlewareMutation_compose.1 [] (some "y") rfl⟩

/-- Counterexample to claim C9 as stated: the empty string is a non-null
scope that addresses no sub-tree of `{a: 1}`, yet resolving with it does
not use an empty base layer — the JS truthiness test `scope ?` treats ""
as no scope, so the whole document is the base and the result is `{a: 1}`,
not the merge of the (empty) mutation and override layers. -/
theorem getConfig_empty_scope_base_not_empty :
    getPathV doc9 (splitDot "") = none
    ∧ getConfig "/p" fs9 [] [] (some "") emptyObj false true
        = Except.ok (doc9, [(findConfig "/p", doc9)])
    ∧ doc9 ≠ mergeAll [emptyObj, emptyObj, getMiddlewareMutation [] (some ""), emptyObj] := by
  refine ⟨rfl, ?_, ?_⟩
  · simp [getConfig, loadConfigFile, requireMod, lookupAssoc, fs9, doc9, resolveLayers,
      getMiddlewareMutation, scopeKey, jsTruthy, mergeAll, mergeV, mergeInto, setKey, emptyObj]
  · simp [doc9, mergeAll, mergeV, mergeInto, getMiddlewareMutation, scopeKey, lookupAssoc,
      emptyObj]

/-- Claim C9 as amended: for every loaded document and every non-null,
NON-EMPTY scope string that does not address an existing sub-tree of the
document, `getConfig` uses the empty object as the base layer and raises no
error — the result is the merge of the extension mutation and the caller
override alone. -/
theorem getConfig_missing_scope_empty_base
    (root : String) (fs : FS) (cache : Cache) (middlewares : Middlewares)
    (s : String) (mergeWith : Value) (force runMiddleware : Bool)
    (d : Value) (cache1 : Cache)
    (hs : s ≠ "")
    (hload : loadConfigFile root fs cache force = Except.ok (d, cache1))
    (hmiss : getPathV d (splitDot s) = none) :
    getConfig root fs cache middlewares (some s) mergeWith force runMiddleware
      = Except.ok
          (mergeAll [emptyObj,
            if runMiddleware then getMiddlewareMutation middlewares (some s) else emptyObj,
            if jsTruthy mergeWith then mergeWith else emptyObj],
           cache1) := by
  simp only [getConfig, hload]
  simp [resolveLayers, hs, lodashGet, hmiss, mergeAll, mergeV, mergeInto, emptyObj]

/-- Witness for the amended C9: scope "missing" on the document `{a: 1}`
resolves without error to the empty object. -/
theorem getConfig_missing_scope_empty_base_witness :
    ("missing" : String) ≠ ""
    ∧ getConfig "/p" fs9 [] [] (some "missing") emptyObj false true
        = Except.ok (emptyObj, [(findConfig "/p", doc9)]) := by
  constructor
  · decide
  · have h := getConfig_missing_scope_empty_base "/p" fs9 [] [] "missing" emptyObj false true
      doc9 [(findConfig "/p", doc9)] (by decide)
      (by simp [loadConfigFile, requireMod, lookupAssoc, fs9]) rfl
    simpa [mergeAll, mergeV, mergeInto, getMiddlewareMutation, scopeKey, lookupAssoc,
      jsTruthy, emptyObj] using h

/-- Claim C10: when no contribution is registered under the literal scope
name "null", a whole-document resolve (`scope = null`) with middleware
enabled applies an empty mutation — the JS property lookup coerces the
`null` scope to the key "null", so contributions under any other named
scope never reach it, and the resolve equals one with middleware disabled. -/
theorem getConfig_null_scope_ignores_named_scopes
    (root : String) (fs : FS) (cache : Cache) (middlewares : Middlewares)
    (mergeWith : Value) (force : Bool)
    (h : lookupAssoc middlewares "null" = none) :
    getMiddlewareMutation middlewares none = emptyObj
    ∧ getConfig root fs cache middlewares none mergeWith force true
        = getConfig root fs cache middlewares none mergeWith force false := by
  have hm : getMiddlewareMutation middlewares none = emptyObj := by
    simp [getMiddlewareMutation, scopeKey, h]
  refine ⟨hm, ?_⟩
  cases hl : loadConfigFile root fs cache force with
  | error e => simp [getConfig, hl]
  | ok dc =>
    obtain ⟨d, c⟩ := dc
    simp [getConfig, hl, resolveLayers, hm]

/-- A middleware table with one contribution registered, under the
(ordinary) scope name "api". -/
def mws10 : Middlewares := (extendConfig "api" (some (Contribution.static doc9)) []).1

/-- Witness for C10 on a table carrying a contribution under "api". -/
theorem getConfig_null_scope_ignores_named_scopes_witness :
    lookupAssoc mws10 "null" = none
    ∧ getConfig "/p" fs9 [] mws10 none emptyObj false true
        = getConfig "/p" fs9 [] mws10 none emptyObj false false := by
  have hnull : lookupAssoc mws10 "null" = none := by
    simp [mws10, extendConfig, pushContribution, lookupAssoc]
  exact ⟨hnull,
    (getConfig_null_scope_ignores_named_scopes "/p" fs9 [] mws10 emptyObj false hnull).2⟩

end PleasureUtils
